import Mathlib

/-!
# Verification of the robot-frank hardware actuation layer

Shallow embedding of the PCA9685 servo driver
(`src/hardware/adeept_robot_v3p1/servos/driver.py`,
`src/hardware/adeept_robot_v3p1/servos/pca9685.py`) and the WS2812 SPI LED
driver (`src/hardware/leds/handler.py`,
`src/hardware/adeept_robot_v3-1/leds/ws2812.py`).

Python's exact (arbitrary precision) integers are modelled by `ℤ`/`ℕ`, and
float arithmetic over the small decimal quantities appearing here by `ℚ`.
Python's `int(x)` (truncation toward zero) is `pyInt`, and Python 3's
`round` (round half to even) is `pyRound`.

Bus traffic is modelled by transcripts: each operation returns the list of
register/channel writes it performs, together with an optional error
(a raised exception).  A possible I²C failure of the underlying
`duty_cycle` write is modelled by a predicate `failing` on channels.
-/

namespace RobotFrank

/-- Python `int(x)` applied to a real quantity: truncation toward zero. -/
def pyInt (q : ℚ) : ℤ := if q < 0 then -⌊-q⌋ else ⌊q⌋

/-- Python 3 `round(x)` (no digits argument): round half to even. -/
def pyRound (q : ℚ) : ℤ :=
  let n := ⌊q⌋
  let r := q - (n : ℚ)
  if r < 1/2 then n
  else if 1/2 < r then n + 1
  else if n % 2 = 0 then n else n + 1

theorem pyInt_of_nonneg {q : ℚ} (h : 0 ≤ q) : pyInt q = ⌊q⌋ := by
  simp [pyInt, not_lt.mpr h]

theorem pyInt_intCast (m : ℤ) : pyInt (m : ℚ) = m := by
  unfold pyInt
  split
  · rw [← Int.cast_neg, Int.floor_intCast]
    omega
  · simp

/-! ## Servo layer: `ServoDriver` (driver.py)

One entry of the `pwm.servos` section of `config.yaml`, after
`_load_config` has filled in the defaults `min_angle = 0`,
`max_angle = 180` for absent optional keys.  In the Python class the
per-servo data is spread over the parallel lists `_min_pulse`,
`_max_pulse`, `_default_angle`, `_angle_limits`, `_channel_map`, all
built in the (insertion-ordered) enumeration order of the `servos`
dict; here one record per servo, kept in a list in that same declared
order. -/
structure ActuatorSpec where
  name : String
  channel : ℤ
  min_pulse : ℚ
  max_pulse : ℚ
  min_angle : ℚ
  max_angle : ℚ
  default_angle : ℚ
deriving DecidableEq

/-- Name lookup in the servo table (`servo_name in self._servo_defs` /
`self._servo_index[servo_name]`); a Python dict has unique keys, so on
tables with `Nodup` names `find?` is an exact model. -/
def lookup (cfg : List ActuatorSpec) (n : String) : Option ActuatorSpec :=
  cfg.find? (fun s => s.name == n)

/-- `ServoDriver._pulse_from_angle` (driver.py lines 216-236): clamp the
requested angle into the servo's angle limits, then linearly interpolate
between the pulse limits and truncate with Python's `int`. -/
def pulse_from_angle (s : ActuatorSpec) (angle : ℚ) : ℤ :=
  let a := max s.min_angle (min s.max_angle angle)
  pyInt (s.min_pulse + (a - s.min_angle) / (s.max_angle - s.min_angle) * (s.max_pulse - s.min_pulse))

/-- Errors raised by `ServoDriver`: `ValueError` on an unknown servo name
(the spec's `UnknownActuator`), and an I/O error escaping from the
`duty_cycle` hardware write (the spec's `BusError`). -/
inductive ServoErr where
  | unknownActuator
  | busError
deriving DecidableEq

/-- A transcript of channel writes (`self._pca.channels[ch].duty_cycle = v`)
paired with the exception, if one was raised. -/
abbrev ServoOutcome := List (ℤ × ℤ) × Option ServoErr

/-- The value `set_angle` writes for a servo `s` and requested angle `a`:
the code clamps `angle` and passes it through `_pulse_from_angle`
(which clamps again, a no-op) and `int` (idempotent on an `int`). -/
def servoWrite (s : ActuatorSpec) (a : ℚ) : ℤ :=
  pulse_from_angle s (max s.min_angle (min s.max_angle a))

/-- `ServoDriver.set_angle` (driver.py lines 238-271).  `failing ch = true`
models the `duty_cycle` assignment on channel `ch` raising an I/O error.
Note the final write stores the *pulse width in µs* directly: the 12-bit
duty conversion in the source is commented out. -/
def set_angle (cfg : List ActuatorSpec) (failing : ℤ → Bool)
    (n : String) (angle : ℚ) : ServoOutcome :=
  match lookup cfg n with
  | none => ([], some .unknownActuator)
  | some s =>
      if failing s.channel then ([], some .busError)
      else ([(s.channel, servoWrite s angle)], none)

/-- `ServoDriver.set_pulse` (driver.py lines 273-299): clamp the pulse to
the servo's pulse limits and write it directly as `duty_cycle`. -/
def set_pulse (cfg : List ActuatorSpec) (failing : ℤ → Bool)
    (n : String) (pulse : ℚ) : ServoOutcome :=
  match lookup cfg n with
  | none => ([], some .unknownActuator)
  | some s =>
      if failing s.channel then ([], some .busError)
      else ([(s.channel, pyInt (max s.min_pulse (min s.max_pulse pulse)))], none)

/-- Loop body of `ServoDriver.home_all` (driver.py lines 346-352):
`for idx, name in enumerate(self._servo_defs): self.set_angle(name,
self._default_angle[idx])`.  An exception raised by `set_angle` aborts
the `for` loop and propagates, so iteration stops at the first error. -/
def homeAllGo (cfg : List ActuatorSpec) (failing : ℤ → Bool) :
    List ActuatorSpec → List (ℤ × ℤ) → ServoOutcome
  | [], acc => (acc, none)
  | s :: rest, acc =>
      match set_angle cfg failing s.name s.default_angle with
      | (ws, none) => homeAllGo cfg failing rest (acc ++ ws)
      | (ws, some e) => (acc ++ ws, some e)

/-- `ServoDriver.home_all`. -/
def home_all (cfg : List ActuatorSpec) (failing : ℤ → Bool) : ServoOutcome :=
  homeAllGo cfg failing cfg []

/-- The `"wrist"` servo of the spec's concrete scenario. -/
def wrist : ActuatorSpec :=
  { name := "wrist", channel := 3, min_pulse := 150, max_pulse := 600,
    min_angle := 0, max_angle := 180, default_angle := 90 }

/-- A one-servo calibration table holding `wrist`. -/
def wristTable : List ActuatorSpec := [wrist]

/-- A bus on which no channel write fails. -/
def noFail : ℤ → Bool := fun _ => false

/-! ## LED layer: `SpiLedStrip` (handler.py) -/

/-- The six supported `rgb_type` strings (keys of `led_type_offsets`). -/
inductive ChannelOrder where
  | RGB | RBG | GRB | GBR | BRG | BGR
deriving DecidableEq

/-- The `led_type_offsets` table of `SpiLedStrip.__init__`
(handler.py lines 61-68). -/
def led_type_offsets : ChannelOrder → ℕ
  | .RGB => 0x06
  | .RBG => 0x09
  | .GRB => 0x12
  | .GBR => 0x21
  | .BRG => 0x18
  | .BGR => 0x24

/-- Modelled from the spec: `set_led_type` is invoked by
`SpiLedStrip.__init__` (handler.py line 77) but is not defined anywhere in
the sources; only the `led_type_offsets` table and the initial
`red_offset, green_offset, blue_offset = 0, 0, 0` exist.  The spec defines
`channel_order` as "permutation (e.g., GRB) defining the byte order a given
LED strip expects per pixel" with "GRB stores green first", so
`set_led_type` must decode the table entry into the buffer positions of
the red, green and blue channels; the table values encode those positions
two bits per channel (`0x12 = 0b01_00_10`: red at 1, green at 0,
blue at 2), exactly realizing the spec's permutation reading. -/
def set_led_type (o : ChannelOrder) : ℕ × ℕ × ℕ :=
  ((led_type_offsets o >>> 4) &&& 3,
   (led_type_offsets o >>> 2) &&& 3,
   led_type_offsets o &&& 3)

/-- Buffer position of the red channel for a given order. -/
def red_offset (o : ChannelOrder) : ℕ := (set_led_type o).1

/-- Buffer position of the green channel for a given order. -/
def green_offset (o : ChannelOrder) : ℕ := (set_led_type o).2.1

/-- Buffer position of the blue channel for a given order. -/
def blue_offset (o : ChannelOrder) : ℕ := (set_led_type o).2.2

/-- State of a `SpiLedStrip` object.  `sent` is the transcript of frames
transmitted by `_send_data`, each recorded as the flattened
`led_color` buffer at transmission time (`flat` in `_send_data`);
the subsequent bit packing of a frame is the pure function
`_pack_8bit`/`_pack_4bit` below.  `ledInit` is `led_init_state`. -/
structure LedState where
  count : ℕ
  brightness : ℤ
  order : ChannelOrder
  ledColor : List (List ℤ)
  ledOriginal : List (List ℤ)
  flag : Bool
  lightMode : String
  ledInit : Bool
  sent : List (List ℤ)
deriving DecidableEq

/-- The brightness scaling `int(c * self.brightness / 255)` applied by
`_set_pixel` to each channel value. -/
def scale (brightness c : ℤ) : ℤ := pyInt (((c * brightness : ℤ) : ℚ) / 255)

/-- `SpiLedStrip._set_pixel` (handler.py lines 133-141): store the
brightness-scaled triple in `led_original[idx]`, and write the scaled
channels into `led_color[idx]` at the configured offsets. -/
def setPixel (s : LedState) (idx : ℕ) (r g b : ℤ) : LedState :=
  let r1 := scale s.brightness r
  let g1 := scale s.brightness g
  let b1 := scale s.brightness b
  let px0 := s.ledColor.getD idx []
  let px1 := px0.set (red_offset s.order) r1
  let px2 := px1.set (green_offset s.order) g1
  let px3 := px2.set (blue_offset s.order) b1
  { s with ledOriginal := s.ledOriginal.set idx [r1, g1, b1],
           ledColor := s.ledColor.set idx px3 }

/-- `SpiLedStrip._send_data` (handler.py lines 149-164): when the SPI
device was initialised, flatten `led_color` and transmit it (the
transcript records the flat frame; `_pack_4bit`/`_pack_8bit` below give
the wire bytes). -/
def sendData (s : LedState) : LedState :=
  if s.ledInit then { s with sent := s.sent ++ [s.ledColor.flatten] } else s

/-- `SpiLedStrip._set_all_rgb` (handler.py lines 143-147). -/
def setAllRgb (s : LedState) (r g b : ℤ) : LedState :=
  sendData ((List.range s.count).foldl (fun st i => setPixel st i r g b) s)

/-- `SpiLedStrip._clear_strip` (handler.py lines 129-131). -/
def clearStrip (s : LedState) : LedState := setAllRgb s 0 0 0

/-- `SpiLedStrip.pause` (handler.py lines 116-121). -/
def pause (s : LedState) : LedState :=
  clearStrip { s with lightMode := "none", flag := false }

/-- `SpiLedStrip.resume` (handler.py lines 122-124). -/
def resume (s : LedState) : LedState := { s with flag := true }

/-- `SpiLedStrip._wheel` (handler.py lines 207-216), identical to the
`_wheel` of `adeept_robot_v3-1/leds/ws2812.py` (lines 11-31). -/
def wheel (pos : ℤ) : ℤ × ℤ × ℤ :=
  if pos < 85 then (255 - pos * 3, pos * 3, 0)
  else if pos < 170 then
    let p := pos - 85
    (0, 255 - p * 3, p * 3)
  else
    let p := pos - 170
    (p * 3, 0, 255 - p * 3)

/-- The module-level `_wheel` of `adeept_robot_v3-1/leds/ws2812.py`. -/
def ws2812_wheel (pos : ℤ) : ℤ × ℤ × ℤ :=
  if pos < 85 then (255 - pos * 3, pos * 3, 0)
  else if pos < 170 then
    let p := pos - 85
    (0, 255 - p * 3, p * 3)
  else
    let p := pos - 170
    (p * 3, 0, 255 - p * 3)

/-- The inner-loop body of `SpiLedStrip._rainbow_cycle`
(handler.py lines 221-223) at wheel offset `start`:
`color = self._wheel((i * 256 // self.count + start) % 256);
self._set_pixel(i, *color)`. -/
def cyclePixel (start : ℕ) (st : LedState) (i : ℕ) : LedState :=
  let c := wheel (((i * 256 / st.count + start) % 256 : ℕ) : ℤ)
  setPixel st i c.1 c.2.1 c.2.2

/-- One iteration of the outer loop of `SpiLedStrip._rainbow_cycle`
(handler.py lines 218-225) at wheel offset `start`: recolor every pixel
and transmit the frame. -/
def cycleStep (s : LedState) (start : ℕ) : LedState :=
  sendData ((List.range s.count).foldl (cyclePixel start) s)

/-- `SpiLedStrip._rainbow_cycle`: `for start in range(256)`, one
`cycleStep` per offset, always beginning at offset `0`. -/
def rainbowCycle (s : LedState) : LedState :=
  (List.range 256).foldl cycleStep s

/-- `SpiLedStrip.run` (handler.py lines 257-260), with explicit fuel `n`
bounding the number of `while self.flag.is_set()` iterations.  The flag
is tested only between complete rainbow cycles. -/
def run : ℕ → LedState → LedState
  | 0, s => s
  | n + 1, s => if s.flag then run n (rainbowCycle s) else s

/-! ## Bit encoder: `_pack_8bit` / `_pack_4bit` (handler.py lines 169-191)

`_pack_8bit` fills `tx = bytearray(len * 8)` through the slice
assignments `tx[7 - ibit :: 8] = [((c >> ibit) & 1) * 0x78 + 0x80 for c
in colour_bytes]`: output position `j*8 + (7 - ibit)` holds the symbol
for bit `ibit` of input byte `j`; equivalently, output position `i`
holds the symbol for bit `7 - i % 8` of byte `i / 8`.  `_pack_4bit`
likewise fills `tx = bytearray(len * 4)` with
`tx[3 - ibit :: 4] = ((c >> (2*ibit+1)) & 1) * 0x60 + ((c >> (2*ibit)) &
1) * 0x06 + 0x88`. -/

/-- The 8-bit-mode symbol for bit `ibit` of byte `c`:
`((c >> ibit) & 1) * 0x78 + 0x80`, i.e. `0xF8` for a 1 bit and `0x80`
for a 0 bit. -/
def sym8 (c ibit : ℕ) : ℕ := ((c >>> ibit) &&& 1) * 0x78 + 0x80

/-- `SpiLedStrip._pack_8bit`. -/
def pack8 (bs : List ℕ) : List ℕ :=
  (List.range (bs.length * 8)).map (fun i => sym8 (bs.getD (i / 8) 0) (7 - i % 8))

/-- The 4-bit-mode symbol for the bit pair `(2*ibit+1, 2*ibit)` of byte
`c`: `hi * 0x60 + lo * 0x06 + 0x88`, i.e. one of
`0x88, 0x8E, 0xE8, 0xEE`. -/
def sym4 (c ibit : ℕ) : ℕ :=
  ((c >>> (2 * ibit + 1)) &&& 1) * 0x60 + ((c >>> (2 * ibit)) &&& 1) * 0x06 + 0x88

/-- `SpiLedStrip._pack_4bit`. -/
def pack4 (bs : List ℕ) : List ℕ :=
  (List.range (bs.length * 4)).map (fun i => sym4 (bs.getD (i / 4) 0) (3 - i % 4))

/-- The mode selection of `_send_data` (handler.py lines 158-164): the
4-bit packing is chosen when `data_len * 3 <= 64`. -/
def encode (bs : List ℕ) : List ℕ :=
  if bs.length * 3 ≤ 64 then pack4 bs else pack8 bs

/-- Inverse table lookup for an 8-bit-mode symbol. -/
def unsym8 (y : ℕ) : Option ℕ :=
  if y = 0xF8 then some 1 else if y = 0x80 then some 0 else none

/-- Inverse table lookup for a 4-bit-mode symbol (two bits, MSB first). -/
def unsym4 (y : ℕ) : Option (List ℕ) :=
  if y = 0x88 then some [0, 0]
  else if y = 0x8E then some [0, 1]
  else if y = 0xE8 then some [1, 0]
  else if y = 0xEE then some [1, 1]
  else none

/-- Decode an 8-bit-mode symbol stream by inverse table lookup. -/
def decode8 (ys : List ℕ) : Option (List ℕ) := ys.mapM unsym8

/-- Decode a 4-bit-mode symbol stream by inverse table lookup. -/
def decode4 (ys : List ℕ) : Option (List ℕ) :=
  (ys.mapM unsym4).map List.flatten

/-- The bits of a byte, most significant first. -/
def byteBits (c : ℕ) : List ℕ :=
  (List.range 8).map (fun k => (c >>> (7 - k)) &&& 1)

/-- The bit stream of a byte sequence, each byte MSB first. -/
def bitsOf (bs : List ℕ) : List ℕ := bs.flatMap byteBits

/-! ## PCA9685 register driver (pca9685.py) -/

namespace PCA9685

/-- `REGISTER_MODE1` (pca9685.py line 31). -/
def REGISTER_MODE1 : ℤ := 0x00

/-- `REGISTER_PRESCALE` (pca9685.py line 32). -/
def REGISTER_PRESCALE : ℤ := 0xFE

/-- `REGISTER_LED0_ON_L` (pca9685.py line 33). -/
def REGISTER_LED0_ON_L : ℕ := 0x06

/-- The error raised by `set_pwm_on_channel` for a channel outside 0..15
(`ValueError("Channel must be between 0 and 15")`), the spec's
`InvalidChannel`. -/
inductive PwmErr where
  | invalidChannel
deriving DecidableEq

/-- The 12-bit on-time computed by `set_pwm_on_channel`:
`int(round(pulse_us * 4096 / 1_000_000))` clamped into `0..4095`
(a fixed 4096-tick period, independent of the configured frequency). -/
def on_tick_of (pulse_us : ℚ) : ℕ :=
  (max 0 (min 4095 (pyRound (pulse_us * 4096 / 1000000)))).toNat

/-- `PCA9685.set_pwm_on_channel` (pca9685.py lines 149-178): register
writes (register, byte) performed, plus the raised error if any.  Only
the two ON registers `reg_base = LED0_ON_L + channel*4` and
`reg_base + 1` are written. -/
def set_pwm_on_channel (channel : ℤ) (pulse_us : ℚ) :
    List (ℕ × ℕ) × Option PwmErr :=
  if ¬ (0 ≤ channel ∧ channel ≤ 15) then ([], some .invalidChannel)
  else
    let on_tick := on_tick_of pulse_us
    let reg_base := REGISTER_LED0_ON_L + channel.toNat * 4
    ([(reg_base, on_tick &&& 0xFF), (reg_base + 1, on_tick >>> 8)], none)

/-- The prescale value computed by `PCA9685.set_pwm_freq`
(pca9685.py line 140): `int(round((2400.0 / (4096.0 * freq)) - 1.0))`,
with no clamping of any kind. -/
def prescale_value (freq : ℚ) : ℤ := pyRound (2400 / (4096 * freq) - 1)

/-- `PCA9685.set_pwm_freq` (pca9685.py lines 124-147) as a write
transcript, given the value `mode1` read back from `REGISTER_MODE1`: the
code writes the prescale value to `REGISTER_PRESCALE` and then writes
`mode1 & 0x7F` to `REGISTER_MODE1`.  It never writes `REGISTER_MODE1`
before the prescale write, and `& 0x7F` masks bit 7 (RESTART), not the
sleep bit `0x10`. -/
def set_pwm_freq (freq : ℚ) (mode1 : ℕ) : List (ℤ × ℤ) :=
  [(REGISTER_PRESCALE, prescale_value freq),
   (REGISTER_MODE1, ((mode1 &&& 0x7F : ℕ) : ℤ))]

end PCA9685

/-! ## Helper notions used by the theorems -/

/-- The exact (unrounded) linear interpolation value computed inside
`_pulse_from_angle` after clamping; `pulse_from_angle` is `pyInt` of
this quantity. -/
def interpOf (s : ActuatorSpec) (angle : ℚ) : ℚ :=
  let a := max s.min_angle (min s.max_angle angle)
  s.min_pulse + (a - s.min_angle) / (s.max_angle - s.min_angle) * (s.max_pulse - s.min_pulse)

theorem pulse_from_angle_eq_pyInt (s : ActuatorSpec) (angle : ℚ) :
    pulse_from_angle s angle = pyInt (interpOf s angle) := rfl

/-- Well-formedness of a strip state: the colour buffers have one entry
per pixel and three channel slots per entry, as established by
`__init__` (`self.led_color = [[0, 0, 0] for _ in range(self.count)]`). -/
def WF (s : LedState) : Prop :=
  s.ledColor.length = s.count ∧ (∀ px ∈ s.ledColor, px.length = 3) ∧
    s.ledOriginal.length = s.count

instance (s : LedState) : Decidable (WF s) := by
  unfold WF
  infer_instance

/-- The pixel entry `_set_pixel` produces for scaled channel values
`(r, g, b)` under a channel order: the three `list.set` writes at the
red/green/blue offsets fill all three slots. -/
def permTriple (o : ChannelOrder) (r g b : ℤ) : List ℤ :=
  match o with
  | .RGB => [r, g, b]
  | .RBG => [r, b, g]
  | .GRB => [g, r, b]
  | .GBR => [g, b, r]
  | .BRG => [b, r, g]
  | .BGR => [b, g, r]

theorem permTriple_length (o : ChannelOrder) (r g b : ℤ) :
    (permTriple o r g b).length = 3 := by
  cases o <;> rfl

theorem permTriple_zero (o : ChannelOrder) : permTriple o 0 0 0 = [0, 0, 0] := by
  cases o <;> rfl

theorem scale_zero (br : ℤ) : scale br 0 = 0 := by
  simp [scale, pyInt]

theorem scale_255 (br : ℤ) : scale br 255 = br := by
  have h : ((255 * br : ℤ) : ℚ) / 255 = (br : ℚ) := by
    push_cast
    ring
  simp [scale, h, pyInt_intCast]

theorem set_offsets_perm (o : ChannelOrder) (px : List ℤ) (h : px.length = 3)
    (r g b : ℤ) :
    ((px.set (red_offset o) r).set (green_offset o) g).set (blue_offset o) b =
      permTriple o r g b := by
  obtain ⟨x, y, z, rfl⟩ := List.length_eq_three.mp h
  cases o <;> rfl

theorem setPixel_eq (s : LedState) (idx : ℕ) (r g b : ℤ)
    (h3 : ∀ px ∈ s.ledColor, px.length = 3) (hidx : idx < s.ledColor.length) :
    setPixel s idx r g b =
      { s with
        ledOriginal := s.ledOriginal.set idx
          [scale s.brightness r, scale s.brightness g, scale s.brightness b],
        ledColor := s.ledColor.set idx
          (permTriple s.order (scale s.brightness r) (scale s.brightness g)
            (scale s.brightness b)) } := by
  have hpx : s.ledColor.getD idx [] = s.ledColor[idx] := List.getD_eq_getElem _ _ hidx
  have hmem : s.ledColor[idx] ∈ s.ledColor := List.getElem_mem hidx
  simp only [setPixel, hpx]
  rw [set_offsets_perm s.order _ (h3 _ hmem)]

theorem foldl_set_length {α : Type} (v : α) :
    ∀ (l : List ℕ) (xs : List α),
      (l.foldl (fun ys i => ys.set i v) xs).length = xs.length := by
  intro l
  induction l with
  | nil => intro xs; rfl
  | cons a l ih => intro xs; simp [List.foldl_cons, ih, List.length_set]

theorem foldl_set_mem {α : Type} (v : α) (P : α → Prop) (hv : P v) :
    ∀ (l : List ℕ) (xs : List α), (∀ x ∈ xs, P x) →
      ∀ x ∈ l.foldl (fun ys i => ys.set i v) xs, P x := by
  intro l
  induction l with
  | nil => intro xs h; exact h
  | cons a l ih =>
      intro xs h x hx
      refine ih _ ?_ x hx
      intro y hy
      rcases List.mem_or_eq_of_mem_set hy with h' | rfl
      · exact h y h'
      · exact hv

theorem foldl_set_getElem? {α : Type} (v : α) :
    ∀ (n : ℕ) (xs : List α) (j : ℕ),
      ((List.range n).foldl (fun ys i => ys.set i v) xs)[j]? =
        if j < n ∧ j < xs.length then some v else xs[j]? := by
  intro n
  induction n with
  | zero => intro xs j; simp
  | succ n ih =>
      intro xs j
      rw [List.range_succ, List.foldl_append, List.foldl_cons, List.foldl_nil,
        List.getElem?_set, foldl_set_length, ih]
      by_cases h1 : j < xs.length
      · by_cases h2 : n = j
        · subst h2; simp [h1, Nat.lt_succ_self]
        · by_cases h3 : j < n
          · simp [h2, h3, h1, Nat.lt_succ_of_lt h3]
          · have : ¬ j < n + 1 := by omega
            simp [h2, h3, this]
      · have h3 : ¬ (j < n ∧ j < xs.length) := by omega
        have h4 : ¬ (j < n + 1 ∧ j < xs.length) := by omega
        by_cases h2 : n = j <;> simp [h2, h3, h4, h1, List.getElem?_eq_none,
          le_of_not_lt h1]

theorem foldl_set_range_full {α : Type} (v : α) (xs : List α) :
    (List.range xs.length).foldl (fun ys i => ys.set i v) xs =
      List.replicate xs.length v := by
  apply List.ext_getElem?
  intro j
  rw [foldl_set_getElem?, List.getElem?_replicate]
  by_cases h : j < xs.length
  · simp [h]
  · simp [h, List.getElem?_eq_none (le_of_not_lt h)]

theorem foldl_setPixel_const (r g b : ℤ) :
    ∀ (n : ℕ) (s : LedState), (∀ px ∈ s.ledColor, px.length = 3) →
      n ≤ s.ledColor.length →
      (List.range n).foldl (fun st i => setPixel st i r g b) s =
        { s with
          ledColor := (List.range n).foldl
            (fun xs i => xs.set i (permTriple s.order (scale s.brightness r)
              (scale s.brightness g) (scale s.brightness b))) s.ledColor,
          ledOriginal := (List.range n).foldl
            (fun xs i => xs.set i [scale s.brightness r, scale s.brightness g,
              scale s.brightness b]) s.ledOriginal } := by
  intro n
  induction n with
  | zero => intro s _ _; rfl
  | succ n ih =>
      intro s h3 hn
      rw [List.range_succ, List.foldl_append, List.foldl_cons, List.foldl_nil,
        ih s h3 (Nat.le_of_succ_le hn)]
      rw [setPixel_eq]
      · simp only [List.range_succ, List.foldl_append, List.foldl_cons,
          List.foldl_nil]
      · exact foldl_set_mem _ (fun px : List ℤ => px.length = 3)
          (permTriple_length s.order _ _ _) _ _ h3
      · rw [foldl_set_length]
        omega

theorem setAllRgb_eq (s : LedState) (r g b : ℤ) (hwf : WF s)
    (hinit : s.ledInit = true) :
    setAllRgb s r g b =
      { s with
        ledColor := List.replicate s.count
          (permTriple s.order (scale s.brightness r) (scale s.brightness g)
            (scale s.brightness b)),
        ledOriginal := List.replicate s.count
          [scale s.brightness r, scale s.brightness g, scale s.brightness b],
        sent := s.sent ++ [(List.replicate s.count
          (permTriple s.order (scale s.brightness r) (scale s.brightness g)
            (scale s.brightness b))).flatten] } := by
  obtain ⟨hc, h3, ho⟩ := hwf
  unfold setAllRgb
  rw [foldl_setPixel_const r g b s.count s h3 (le_of_eq hc.symm)]
  rw [show s.count = s.ledColor.length from hc.symm] at *
  rw [foldl_set_range_full]
  rw [show s.ledColor.length = s.ledOriginal.length from hc.trans ho.symm]
  rw [foldl_set_range_full]
  unfold sendData
  simp only [hinit, if_true]

theorem flatten_replicate_three (n : ℕ) :
    (List.replicate n ([0, 0, 0] : List ℤ)).flatten = List.replicate (3 * n) (0 : ℤ) := by
  induction n with
  | zero => rfl
  | succ n ih =>
      rw [List.replicate_succ, List.flatten_cons, ih,
        show 3 * (n + 1) = 3 * n + 1 + 1 + 1 by ring]
      simp [List.replicate_succ]

theorem pause_eq (s : LedState) (hwf : WF s) (hinit : s.ledInit = true) :
    pause s =
      { s with
          lightMode := "none", flag := false,
          ledColor := List.replicate s.count ([0, 0, 0] : List ℤ),
          ledOriginal := List.replicate s.count ([0, 0, 0] : List ℤ),
          sent := s.sent ++ [List.replicate (3 * s.count) (0 : ℤ)] } := by
  unfold pause clearStrip
  rw [setAllRgb_eq { s with lightMode := "none", flag := false } 0 0 0 hwf hinit]
  simp [scale_zero, permTriple_zero, flatten_replicate_three]

theorem WF_pause (s : LedState) (hwf : WF s) (hinit : s.ledInit = true) :
    WF (pause s) := by
  rw [pause_eq s hwf hinit]
  refine ⟨by simp, ?_, by simp⟩
  intro px hpx
  rw [List.eq_of_mem_replicate hpx]
  rfl

/-- `sent` and `ledInit` are untouched by a fold of per-pixel updates. -/
theorem foldl_preserve (g : LedState → ℕ → LedState)
    (h : ∀ st x, (g st x).sent = st.sent ∧ (g st x).ledInit = st.ledInit) :
    ∀ (l : List ℕ) (s : LedState),
      (l.foldl g s).sent = s.sent ∧ (l.foldl g s).ledInit = s.ledInit := by
  intro l
  induction l with
  | nil => intro s; exact ⟨rfl, rfl⟩
  | cons a l ih =>
      intro s
      rw [List.foldl_cons]
      obtain ⟨h1, h2⟩ := ih (g s a)
      obtain ⟨h3, h4⟩ := h s a
      exact ⟨h1.trans h3, h2.trans h4⟩

theorem cycleStep_sent_ext (s : LedState) (k : ℕ) :
    (∃ tl, (cycleStep s k).sent = s.sent ++ tl) ∧
      (cycleStep s k).ledInit = s.ledInit := by
  obtain ⟨h1, h2⟩ :=
    foldl_preserve (cyclePixel k) (fun st x => ⟨rfl, rfl⟩) (List.range s.count) s
  unfold cycleStep sendData
  split
  · exact ⟨⟨_, by rw [h1]⟩, h2⟩
  · exact ⟨⟨[], by rw [h1, List.append_nil]⟩, h2⟩

theorem cycleStep_sent (s : LedState) (k : ℕ) (hinit : s.ledInit = true) :
    ∃ fr, (cycleStep s k).sent = s.sent ++ [fr] := by
  obtain ⟨h1, h2⟩ :=
    foldl_preserve (cyclePixel k) (fun st x => ⟨rfl, rfl⟩) (List.range s.count) s
  unfold cycleStep sendData
  rw [h2, hinit, if_pos rfl]
  exact ⟨_, by rw [h1]⟩

theorem foldl_cycleStep_sent_ext :
    ∀ (l : List ℕ) (t : LedState), ∃ tl, (l.foldl cycleStep t).sent = t.sent ++ tl := by
  intro l
  induction l with
  | nil => intro t; exact ⟨[], by simp⟩
  | cons a l ih =>
      intro t
      rw [List.foldl_cons]
      obtain ⟨tl1, h1⟩ := ih (cycleStep t a)
      obtain ⟨⟨tl0, h0⟩, _⟩ := cycleStep_sent_ext t a
      exact ⟨tl0 ++ tl1, by rw [h1, h0, List.append_assoc]⟩

theorem range_256_cons : List.range 256 = 0 :: List.range' 1 255 := by
  rw [List.range_eq_range']
  rfl

/-- After `resume`, the first frame transmitted by the next
`_rainbow_cycle` invocation is the frame of wheel offset `0`: the
transcript up to and including that frame equals the transcript of a
single `cycleStep` at offset `0`. -/
theorem rainbowCycle_first_frame (t : LedState) (hinit : t.ledInit = true) :
    (rainbowCycle t).sent.take (t.sent.length + 1) = (cycleStep t 0).sent := by
  unfold rainbowCycle
  rw [range_256_cons, List.foldl_cons]
  obtain ⟨tl, htl⟩ := foldl_cycleStep_sent_ext (List.range' 1 255) (cycleStep t 0)
  obtain ⟨fr, hfr⟩ := cycleStep_sent t 0 hinit
  have hlen : (cycleStep t 0).sent.length = t.sent.length + 1 := by
    rw [hfr]
    simp
  rw [htl, ← hlen, List.take_left]

/-! ### Bit-encoder lemmas -/

theorem and_one_cases (x : ℕ) : x &&& 1 = 0 ∨ x &&& 1 = 1 := by
  rw [Nat.and_one_is_mod]
  omega

theorem sym8_eq_ite (c k : ℕ) :
    sym8 c k = if (c >>> k) &&& 1 = 1 then 0xF8 else 0x80 := by
  rcases and_one_cases (c >>> k) with h | h <;> simp [sym8, h]

theorem unsym8_sym8 (c k : ℕ) : unsym8 (sym8 c k) = some ((c >>> k) &&& 1) := by
  rcases and_one_cases (c >>> k) with h | h <;> simp [sym8, unsym8, h]

theorem unsym4_sym4 (c j : ℕ) :
    unsym4 (sym4 c j) =
      some [(c >>> (2 * j + 1)) &&& 1, (c >>> (2 * j)) &&& 1] := by
  rcases and_one_cases (c >>> (2 * j + 1)) with h1 | h1 <;>
    rcases and_one_cases (c >>> (2 * j)) with h2 | h2 <;>
      simp [sym4, unsym4, h1, h2]

theorem pack8_eq_flatMap (bs : List ℕ) :
    pack8 bs = bs.flatMap (fun c => (List.range 8).map (fun k => sym8 c (7 - k))) := by
  induction bs with
  | nil => rfl
  | cons c rest ih =>
      unfold pack8
      rw [show (c :: rest).length * 8 = 8 + rest.length * 8 by simp [Nat.succ_mul]; ring,
        List.range_add, List.map_append, List.map_map, List.flatMap_cons]
      congr 1
      rw [← ih]
      unfold pack8
      apply List.map_congr_left
      intro i _
      show sym8 ((c :: rest).getD ((8 + i) / 8) 0) (7 - (8 + i) % 8) = _
      rw [Nat.add_comm 8 i, Nat.add_div_right _ (by omega), Nat.add_mod_right,
        List.getD_cons_succ]

theorem pack4_eq_flatMap (bs : List ℕ) :
    pack4 bs = bs.flatMap (fun c => (List.range 4).map (fun k => sym4 c (3 - k))) := by
  induction bs with
  | nil => rfl
  | cons c rest ih =>
      unfold pack4
      rw [show (c :: rest).length * 4 = 4 + rest.length * 4 by simp [Nat.succ_mul]; ring,
        List.range_add, List.map_append, List.map_map, List.flatMap_cons]
      congr 1
      rw [← ih]
      unfold pack4
      apply List.map_congr_left
      intro i _
      show sym4 ((c :: rest).getD ((4 + i) / 4) 0) (3 - (4 + i) % 4) = _
      rw [Nat.add_comm 4 i, Nat.add_div_right _ (by omega), Nat.add_mod_right,
        List.getD_cons_succ]

theorem decode8_byte (c : ℕ) :
    ((List.range 8).map (fun k => sym8 c (7 - k))).mapM unsym8 = some (byteBits c) := by
  have h : List.range 8 = [0, 1, 2, 3, 4, 5, 6, 7] := rfl
  rw [h]
  simp only [List.map_cons, List.map_nil, List.mapM_cons, List.mapM_nil, unsym8_sym8]
  rfl

theorem decode4_byte (c : ℕ) :
    ((List.range 4).map (fun k => sym4 c (3 - k))).mapM unsym4 =
      some [[(c >>> 7) &&& 1, (c >>> 6) &&& 1], [(c >>> 5) &&& 1, (c >>> 4) &&& 1],
        [(c >>> 3) &&& 1, (c >>> 2) &&& 1], [(c >>> 1) &&& 1, (c >>> 0) &&& 1]] := by
  have h : List.range 4 = [0, 1, 2, 3] := rfl
  rw [h]
  simp only [List.map_cons, List.map_nil, List.mapM_cons, List.mapM_nil, unsym4_sym4]
  rfl

theorem decode8_pack8 (bs : List ℕ) : decode8 (pack8 bs) = some (bitsOf bs) := by
  rw [pack8_eq_flatMap]
  unfold decode8
  induction bs with
  | nil => rfl
  | cons c rest ih =>
      rw [List.flatMap_cons, List.mapM_append, ih, decode8_byte]
      have hb : bitsOf (c :: rest) = byteBits c ++ bitsOf rest := by
        simp [bitsOf]
      rw [hb]
      rfl

theorem decode4_pack4 (bs : List ℕ) : decode4 (pack4 bs) = some (bitsOf bs) := by
  rw [pack4_eq_flatMap]
  induction bs with
  | nil => rfl
  | cons c rest ih =>
      unfold decode4 at ih ⊢
      rw [List.flatMap_cons, List.mapM_append, decode4_byte]
      cases hm : (rest.flatMap fun x =>
          (List.range 4).map fun k => sym4 x (3 - k)).mapM unsym4 with
      | none =>
          rw [hm] at ih
          simp at ih
      | some l =>
          rw [hm] at ih
          have hflat : l.flatten = bitsOf rest := by simpa using ih
          have hb : bitsOf (c :: rest) = byteBits c ++ l.flatten := by
            rw [hflat]
            simp [bitsOf]
          rw [hb]
          rfl

/-! ### Servo-driver lemmas -/

theorem lookup_self :
    ∀ (cfg : List ActuatorSpec), (cfg.map ActuatorSpec.name).Nodup →
      ∀ s ∈ cfg, lookup cfg s.name = some s := by
  intro cfg
  induction cfg with
  | nil => intro _ s hs; cases hs
  | cons a l ih =>
      intro hnd s hs
      rw [List.map_cons, List.nodup_cons] at hnd
      rcases List.mem_cons.mp hs with rfl | hmem
      · unfold lookup
        rw [List.find?_cons_of_pos]
        simp
      · have hne : a.name ≠ s.name := by
          intro he
          exact hnd.1 (he ▸ List.mem_map_of_mem ActuatorSpec.name hmem)
        unfold lookup
        rw [List.find?_cons_of_neg]
        · exact ih hnd.2 s hmem
        · simp [hne]

theorem set_angle_ok (cfg : List ActuatorSpec) (f : ℤ → Bool)
    (hnd : (cfg.map ActuatorSpec.name).Nodup) (s : ActuatorSpec) (hs : s ∈ cfg)
    (hf : f s.channel = false) (angle : ℚ) :
    set_angle cfg f s.name angle = ([(s.channel, servoWrite s angle)], none) := by
  unfold set_angle
  rw [lookup_self cfg hnd s hs]
  simp [hf]

theorem homeAllGo_ok (cfg : List ActuatorSpec) (f : ℤ → Bool)
    (hnd : (cfg.map ActuatorSpec.name).Nodup)
    (hok : ∀ s ∈ cfg, f s.channel = false) :
    ∀ (rest : List ActuatorSpec), (∀ s ∈ rest, s ∈ cfg) → ∀ acc,
      homeAllGo cfg f rest acc =
        (acc ++ rest.map (fun s => (s.channel, servoWrite s s.default_angle)),
          none) := by
  intro rest
  induction rest with
  | nil => intro _ acc; simp [homeAllGo]
  | cons s rest ih =>
      intro hsub acc
      have hs : s ∈ cfg := hsub s (List.mem_cons_self _ _)
      unfold homeAllGo
      rw [set_angle_ok cfg f hnd s hs (hok s hs)]
      show homeAllGo cfg f rest (acc ++ [(s.channel, servoWrite s s.default_angle)]) = _
      rw [ih (fun x hx => hsub x (List.mem_cons_of_mem _ hx))]
      simp

theorem set_pulse_ok (cfg : List ActuatorSpec) (f : ℤ → Bool)
    (hnd : (cfg.map ActuatorSpec.name).Nodup) (s : ActuatorSpec) (hs : s ∈ cfg)
    (hf : f s.channel = false) (pulse : ℚ) :
    set_pulse cfg f s.name pulse =
      ([(s.channel, pyInt (max s.min_pulse (min s.max_pulse pulse)))], none) := by
  unfold set_pulse
  rw [lookup_self cfg hnd s hs]
  simp [hf]

/-! ## Concrete fixtures for witnesses and counterexamples -/

/-- A two-servo calibration table in declared order. -/
def servoA : ActuatorSpec :=
  { name := "base", channel := 0, min_pulse := 150, max_pulse := 600,
    min_angle := 0, max_angle := 180, default_angle := 90 }

/-- Second servo of the two-servo table. -/
def servoB : ActuatorSpec :=
  { name := "shoulder", channel := 1, min_pulse := 200, max_pulse := 500,
    min_angle := 0, max_angle := 180, default_angle := 45 }

/-- The two-servo table `[servoA, servoB]`. -/
def pairTable : List ActuatorSpec := [servoA, servoB]

/-- A bus on which the `duty_cycle` write on channel 0 raises an I/O
error and every other channel works. -/
def failCh0 : ℤ → Bool := fun ch => ch == 0

/-- A one-pixel GRB strip at full brightness with the SPI device open,
about to run the rainbow animation. -/
def c4s0 : LedState :=
  { count := 1, brightness := 255, order := .GRB, ledColor := [[0, 0, 0]],
    ledOriginal := [[0, 0, 0]], flag := true, lightMode := "rainbow",
    ledInit := true, sent := [] }

/-- `c4s0` after the first six frames (wheel offsets 0..5) of a rainbow
cycle: a strip paused mid-cycle right after transmitting the offset-5
frame. -/
def c4pre : LedState := (List.range 6).foldl cycleStep c4s0

/-- `c4pre` paused and then resumed. -/
def c4res : LedState := resume (pause c4pre)

/-- A one-pixel RBG strip at full brightness. -/
def c7sRBG : LedState :=
  { count := 1, brightness := 255, order := .RBG, ledColor := [[0, 0, 0]],
    ledOriginal := [[0, 0, 0]], flag := true, lightMode := "none",
    ledInit := true, sent := [] }

/-- A two-pixel GRB strip at brightness 128. -/
def c7sGRB : LedState :=
  { count := 2, brightness := 128, order := .GRB,
    ledColor := [[0, 0, 0], [0, 0, 0]], ledOriginal := [[0, 0, 0], [0, 0, 0]],
    flag := true, lightMode := "none", ledInit := true, sent := [] }

/-! ## Claim C1 -/

/-- C1, counterexample.  The claim states the conversion
`pulse = min_pulse + (angle - min_angle) / (max_angle - min_angle) *
(max_pulse - min_pulse)` exactly, but `_pulse_from_angle` truncates the
interpolated value with Python `int`: for the wrist servo
(`min_pulse=150, max_pulse=600, min_angle=0, max_angle=180`) at angle 1
the formula yields `152.5 = 305/2` while the code commands pulse `152`. -/
theorem c1_counterexample :
    pulse_from_angle wrist 1 = 152 ∧
    wrist.min_pulse + (1 - wrist.min_angle) / (wrist.max_angle - wrist.min_angle) *
      (wrist.max_pulse - wrist.min_pulse) = 305 / 2 ∧
    ((152 : ℚ) ≠ 305 / 2) := by
  refine ⟨by with_unfolding_all rfl, by norm_num [wrist], by norm_num⟩

/-- C1, amended.  For every actuator with `min_angle < max_angle` and
integer pulse limits: an angle at or below `min_angle` yields the same
pulse as `angle = min_angle` (silent clamp); the mapping is exact at both
boundaries (`min_angle ↦ min_pulse`, `max_angle ↦ max_pulse`); at every
angle the commanded pulse is the linear interpolation truncated to a
whole microsecond (it lies in `(interp - 1, interp]`); and for the wrist
actuator `{channel=3, min_pulse=150, max_pulse=600, min_angle=0,
max_angle=180}`, `set_angle("wrist", 90)` commands 375 µs on channel 3. -/
theorem c1_amended (s : ActuatorSpec) (angle : ℚ) (mp Mp : ℤ)
    (hangle : s.min_angle < s.max_angle)
    (hmp : s.min_pulse = (mp : ℚ)) (hMp : s.max_pulse = (Mp : ℚ)) :
    (angle ≤ s.min_angle →
      pulse_from_angle s angle = pulse_from_angle s s.min_angle) ∧
    pulse_from_angle s s.min_angle = mp ∧
    pulse_from_angle s s.max_angle = Mp ∧
    (0 ≤ interpOf s angle →
      (pulse_from_angle s angle : ℚ) ≤ interpOf s angle ∧
        interpOf s angle - 1 < (pulse_from_angle s angle : ℚ)) ∧
    set_angle wristTable noFail "wrist" 90 = ([(3, 375)], none) := by
  have hle := le_of_lt hangle
  have hclamp_min : max s.min_angle (min s.max_angle s.min_angle) = s.min_angle := by
    rw [min_eq_right hle, max_self]
  have hclamp_max : max s.min_angle (min s.max_angle s.max_angle) = s.max_angle := by
    rw [min_self, max_eq_right hle]
  refine ⟨?_, ?_, ?_, ?_, by with_unfolding_all rfl⟩
  · intro h
    have e1 : max s.min_angle (min s.max_angle angle) = s.min_angle := by
      rw [min_eq_right (le_trans h hle), max_eq_left h]
    simp only [pulse_from_angle]
    rw [e1, hclamp_min]
  · simp only [pulse_from_angle]
    rw [hclamp_min]
    simp [hmp, pyInt_intCast]
  · have hne : s.max_angle - s.min_angle ≠ 0 := sub_ne_zero.mpr (ne_of_gt hangle)
    simp only [pulse_from_angle]
    rw [hclamp_max, div_self hne, one_mul, hmp, hMp, add_sub_cancel]
    exact pyInt_intCast Mp
  · intro h0
    rw [pulse_from_angle_eq_pyInt, pyInt_of_nonneg h0]
    exact ⟨Int.floor_le _, Int.sub_one_lt_floor _⟩

/-- C1, witness: the amended theorem applied to the wrist actuator at
angle −5. -/
theorem c1_witness :
    ((-5 : ℚ) ≤ wrist.min_angle ∧ wrist.min_angle < wrist.max_angle ∧
      wrist.min_pulse = ((150 : ℤ) : ℚ) ∧ wrist.max_pulse = ((600 : ℤ) : ℚ)) ∧
    (pulse_from_angle wrist (-5) = pulse_from_angle wrist wrist.min_angle ∧
      pulse_from_angle wrist wrist.min_angle = 150 ∧
      pulse_from_angle wrist wrist.max_angle = 600 ∧
      set_angle wristTable noFail "wrist" 90 = ([(3, 375)], none)) := by
  have h := c1_amended wrist (-5) 150 600 (by decide) (by norm_num [wrist])
    (by norm_num [wrist])
  exact ⟨⟨by decide, by decide, by norm_num [wrist], by norm_num [wrist]⟩,
    h.1 (by decide), h.2.1, h.2.2.1, h.2.2.2.2⟩

/-! ## Claim C2 -/

/-- C2, counterexample.  The claim says every servo move converts the
clamped pulse width to a 12-bit duty value before writing.  In the code
that conversion is commented out: `set_angle("wrist", 90)` writes the raw
pulse width 375 as the channel value, whereas the 12-bit conversion of
375 µs (performed only by `PCA9685.set_pwm_on_channel`, which the servo
path never calls) is `round(375*4096/10^6) = 2`; `375 ≠ 2`. -/
theorem c2_counterexample :
    set_angle wristTable noFail "wrist" 90 = ([(3, 375)], none) ∧
    PCA9685.set_pwm_on_channel 3 375 = ([(18, 2), (19, 0)], none) ∧
    ((375 : ℤ) ≠ 2) := by
  refine ⟨by with_unfolding_all rfl, by with_unfolding_all rfl, by decide⟩

/-- C2, amended.  `set_angle` and `set_pulse` write the clamped pulse
width in microseconds *directly* as the channel's `duty_cycle` value (no
12-bit conversion in the servo move path); the conversion of µs to a
12-bit duty assuming a fixed 4096-tick period, clamped to 0..4095,
exists only in the standalone `PCA9685.set_pwm_on_channel`. -/
theorem c2_amended (cfg : List ActuatorSpec) (f : ℤ → Bool) (s : ActuatorSpec)
    (hnd : (cfg.map ActuatorSpec.name).Nodup) (hs : s ∈ cfg)
    (hf : f s.channel = false) (angle pulse : ℚ) :
    set_angle cfg f s.name angle = ([(s.channel, servoWrite s angle)], none) ∧
    set_pulse cfg f s.name pulse =
      ([(s.channel, pyInt (max s.min_pulse (min s.max_pulse pulse)))], none) ∧
    (∀ (ch : ℤ) (p : ℚ), 0 ≤ ch → ch ≤ 15 →
      PCA9685.set_pwm_on_channel ch p =
        ([(6 + ch.toNat * 4, PCA9685.on_tick_of p &&& 255),
          (7 + ch.toNat * 4, PCA9685.on_tick_of p >>> 8)], none)) ∧
    (∀ p : ℚ, PCA9685.on_tick_of p ≤ 4095) := by
  refine ⟨set_angle_ok cfg f hnd s hs hf angle,
    set_pulse_ok cfg f hnd s hs hf pulse, ?_, ?_⟩
  · intro ch p h0 h15
    unfold PCA9685.set_pwm_on_channel
    rw [if_neg (not_not_intro ⟨h0, h15⟩)]
    show ([(PCA9685.REGISTER_LED0_ON_L + ch.toNat * 4, PCA9685.on_tick_of p &&& 255),
      (PCA9685.REGISTER_LED0_ON_L + ch.toNat * 4 + 1, PCA9685.on_tick_of p >>> 8)],
      none) = _
    rw [show PCA9685.REGISTER_LED0_ON_L + ch.toNat * 4 = 6 + ch.toNat * 4 from rfl,
      show 6 + ch.toNat * 4 + 1 = 7 + ch.toNat * 4 by omega]
  · intro p
    unfold PCA9685.on_tick_of
    omega

/-- C2, witness: the amended theorem applied to the wrist table. -/
theorem c2_witness :
    ((pairTable.map ActuatorSpec.name).Nodup ∧ servoA ∈ pairTable ∧
      noFail servoA.channel = false) ∧
    (set_angle pairTable noFail servoA.name 90 =
        ([(servoA.channel, servoWrite servoA 90)], none) ∧
      set_pulse pairTable noFail servoA.name 700 =
        ([(servoA.channel, pyInt (max servoA.min_pulse (min servoA.max_pulse 700)))],
          none) ∧
      set_angle pairTable noFail servoA.name 90 = ([(0, 375)], none)) := by
  have h := c2_amended pairTable noFail servoA (by decide)
    (by decide) rfl 90 700
  refine ⟨⟨by decide, by decide, rfl⟩, h.1, h.2.1, ?_⟩
  rw [h.1]
  with_unfolding_all rfl

/-! ## Claim C3 -/

/-- C3, counterexample.  The claim says a failure on one actuator does
not prevent attempts on the rest and that all failures are collected.
In the code `home_all` has no exception handling: with the two-servo
table `[base (channel 0), shoulder (channel 1)]` and a bus where the
channel-0 write raises, `home_all` propagates that single error
immediately — the transcript is empty and channel 1 is never written —
although `set_angle` on the shoulder alone would succeed. -/
theorem c3_counterexample :
    home_all pairTable failCh0 = ([], some ServoErr.busError) ∧
    set_angle pairTable failCh0 "shoulder" 45 = ([(1, 275)], none) ∧
    ∀ w ∈ (home_all pairTable failCh0).1, w.1 ≠ 1 := by
  refine ⟨by with_unfolding_all rfl, by with_unfolding_all rfl, ?_⟩
  rw [show home_all pairTable failCh0 = ([], some ServoErr.busError) from
    by with_unfolding_all rfl]
  simp

/-- C3, amended.  `home_all` iterates the configured actuators in
configuration-declared order and calls `set_angle(name, default_angle)`
for each; when no write fails it moves every actuator to exactly its
`default_angle`, in order.  A failure, however, aborts the loop and
propagates to the caller: later actuators are not attempted and failures
are not aggregated. -/
theorem c3_amended (cfg : List ActuatorSpec) (f : ℤ → Bool)
    (hnd : (cfg.map ActuatorSpec.name).Nodup)
    (hok : ∀ s ∈ cfg, f s.channel = false) :
    home_all cfg f =
      (cfg.map (fun s => (s.channel, servoWrite s s.default_angle)), none) := by
  unfold home_all
  rw [homeAllGo_ok cfg f hnd hok cfg (fun s hs => hs) []]
  simp

/-- C3, witness: the amended theorem applied to the two-servo table on a
healthy bus. -/
theorem c3_witness :
    ((pairTable.map ActuatorSpec.name).Nodup ∧
      (∀ s ∈ pairTable, noFail s.channel = false)) ∧
    home_all pairTable noFail =
      (pairTable.map (fun s => (s.channel, servoWrite s s.default_angle)), none) ∧
    home_all pairTable noFail = ([(0, 375), (1, 275)], none) := by
  exact ⟨⟨by decide, by decide⟩,
    c3_amended pairTable noFail (by decide) (by decide),
    by with_unfolding_all rfl⟩

/-! ## Claim C9 -/

/-- C9.  For every name not present in the calibration table and every
angle, `set_angle` raises the unknown-actuator error
(`ValueError(f"Unknown servo name: ...")`), performs zero channel
writes, and changes no state (the transcript is empty and the driver
holds no other mutable state in the move path). -/
theorem c9_theorem (cfg : List ActuatorSpec) (f : ℤ → Bool) (n : String)
    (angle : ℚ) (h : lookup cfg n = none) :
    set_angle cfg f n angle = ([], some ServoErr.unknownActuator) := by
  unfold set_angle
  rw [h]

/-- C9, witness: the spec's concrete scenario
`move_to_angle("unknown_servo", 10)` on the wrist table. -/
theorem c9_witness :
    lookup wristTable "unknown_servo" = none ∧
    set_angle wristTable noFail "unknown_servo" 10 =
      ([], some ServoErr.unknownActuator) := by
  have h : lookup wristTable "unknown_servo" = none := by with_unfolding_all rfl
  exact ⟨h, c9_theorem wristTable noFail "unknown_servo" 10 h⟩

/-! ## Claim C5 -/

/-- C5.  The claim (and the method's own docstring and comments) say the
computed prescale is clamped to the chip's valid range and written while
the sleep bit is set, clearing sleep afterwards.  Evaluating the code at
`hz = 50` (the standard servo frequency; `main()` defaults to it) with
`MODE1` reading back `0x10` (sleep set, as left by `_soft_reset`'s write
of `0x10`):  the computed prescale is `round(2400/(4096·50) − 1) = −1`,
outside the chip's valid range `3..255` and written unclamped; the write
sequence starts directly with the `PRESCALE` write — `MODE1` is never
written with the sleep bit set beforehand — and the final `MODE1` write
is `mode1 & 0x7F`, which masks bit 7 (RESTART) and leaves the sleep bit
`0x10` set. -/
theorem c5_eval :
    PCA9685.prescale_value 50 = -1 ∧
    PCA9685.set_pwm_freq 50 0x10 = [(254, -1), (0, 16)] ∧
    ¬ (3 ≤ PCA9685.prescale_value 50 ∧ PCA9685.prescale_value 50 ≤ 255) ∧
    (16 : ℕ) &&& 0x10 = 0x10 := by
  refine ⟨by with_unfolding_all rfl, by with_unfolding_all rfl, ?_, by decide⟩
  rw [show PCA9685.prescale_value 50 = -1 from by with_unfolding_all rfl]
  decide

/-! ## Claim C8 -/

/-- C8.  For every channel outside 0..15, `set_pwm_on_channel` fails
with the invalid-channel error and performs no register write; for every
channel in 0..15 it writes exactly the two on-time registers
`LED0_ON_L + 4·ch` and `LED0_ON_L + 4·ch + 1` of that channel, and no
off-time register (`0x08 + 4·k` or `0x09 + 4·k`) is ever written. -/
theorem c8_theorem (channel : ℤ) (pulse_us : ℚ) :
    (¬ (0 ≤ channel ∧ channel ≤ 15) →
      PCA9685.set_pwm_on_channel channel pulse_us =
        ([], some PCA9685.PwmErr.invalidChannel)) ∧
    ((0 ≤ channel ∧ channel ≤ 15) →
      PCA9685.set_pwm_on_channel channel pulse_us =
        ([(6 + channel.toNat * 4, PCA9685.on_tick_of pulse_us &&& 255),
          (7 + channel.toNat * 4, PCA9685.on_tick_of pulse_us >>> 8)], none)) ∧
    (∀ w ∈ (PCA9685.set_pwm_on_channel channel pulse_us).1, ∀ k : ℕ,
      w.1 ≠ 8 + k * 4 ∧ w.1 ≠ 9 + k * 4) := by
  by_cases h : 0 ≤ channel ∧ channel ≤ 15
  · have hw : PCA9685.set_pwm_on_channel channel pulse_us =
        ([(6 + channel.toNat * 4, PCA9685.on_tick_of pulse_us &&& 255),
          (7 + channel.toNat * 4, PCA9685.on_tick_of pulse_us >>> 8)], none) := by
      unfold PCA9685.set_pwm_on_channel
      rw [if_neg (not_not_intro h)]
      show ([(PCA9685.REGISTER_LED0_ON_L + channel.toNat * 4, _),
        (PCA9685.REGISTER_LED0_ON_L + channel.toNat * 4 + 1, _)], none) = _
      rw [show PCA9685.REGISTER_LED0_ON_L + channel.toNat * 4 =
          6 + channel.toNat * 4 from rfl,
        show 6 + channel.toNat * 4 + 1 = 7 + channel.toNat * 4 by omega]
    refine ⟨fun hn => absurd h hn, fun _ => hw, ?_⟩
    rw [hw]
    intro w hw' k
    rcases List.mem_cons.mp hw' with rfl | hw''
    · exact ⟨by simp; omega, by simp; omega⟩
    · rcases List.mem_cons.mp hw'' with rfl | hw'''
      · exact ⟨by simp; omega, by simp; omega⟩
      · cases hw'''
  · have hw : PCA9685.set_pwm_on_channel channel pulse_us =
        ([], some PCA9685.PwmErr.invalidChannel) := by
      unfold PCA9685.set_pwm_on_channel
      rw [if_pos h]
    refine ⟨fun _ => hw, fun hp => absurd hp h, ?_⟩
    rw [hw]
    intro w hw' k
    cases hw'

/-- C8, witness: the theorem applied at the invalid channel 16 and the
valid channel 3 with a 375 µs pulse. -/
theorem c8_witness :
    (¬ ((0 : ℤ) ≤ 16 ∧ (16 : ℤ) ≤ 15)) ∧
    PCA9685.set_pwm_on_channel 16 375 = ([], some PCA9685.PwmErr.invalidChannel) ∧
    PCA9685.set_pwm_on_channel 3 375 = ([(18, 2), (19, 0)], none) := by
  have h1 := (c8_theorem 16 375).1 (by decide)
  have h2 := (c8_theorem 3 375).2.1 ⟨by decide, by decide⟩
  refine ⟨by decide, h1, ?_⟩
  rw [h2]
  with_unfolding_all rfl

/-! ## Claim C10 -/

/-- C10.  For every wheel position `p` in `[0, 255]`, the colour wheel
returns a triple whose components each lie in `0..255` and sum to
exactly 255; the `_wheel` of `handler.py` and the `_wheel` of
`adeept_robot_v3-1/leds/ws2812.py` agree. -/
theorem c10_theorem (pos : ℤ) (h0 : 0 ≤ pos) (h255 : pos ≤ 255) :
    ((wheel pos).1 + (wheel pos).2.1 + (wheel pos).2.2 = 255) ∧
    (0 ≤ (wheel pos).1 ∧ (wheel pos).1 ≤ 255) ∧
    (0 ≤ (wheel pos).2.1 ∧ (wheel pos).2.1 ≤ 255) ∧
    (0 ≤ (wheel pos).2.2 ∧ (wheel pos).2.2 ≤ 255) ∧
    ws2812_wheel pos = wheel pos := by
  refine ⟨?_, ?_, ?_, ?_, rfl⟩ <;>
    (unfold wheel; split_ifs with h1 h2 <;> simp <;> omega)

/-- C10, witness: the theorem applied at wheel position 200. -/
theorem c10_witness :
    ((0 : ℤ) ≤ 200 ∧ (200 : ℤ) ≤ 255) ∧
    ((wheel 200).1 + (wheel 200).2.1 + (wheel 200).2.2 = 255 ∧
      ws2812_wheel 200 = wheel 200 ∧ wheel 200 = (90, 0, 165)) := by
  have h := c10_theorem 200 (by decide) (by decide)
  exact ⟨⟨by decide, by decide⟩, h.1, h.2.2.2.2, by with_unfolding_all rfl⟩

/-! ## Claim C6 -/

/-- C6.  The bit encoder is deterministic and pure (it is a function of
its input alone).  In 8-bit mode each input bit, most significant first,
expands into exactly one output byte — `0xF8` for a 1 bit, `0x80` for a
0 bit — so the output has `8·n` bytes for `n` input bytes; in 4-bit mode
each pair of input bits packs into one output byte, giving `4·n` bytes,
exactly half the 8-bit size.  Both symbol maps are inverted by table
lookup (`unsym8`/`unsym4`), and decoding the packed stream recovers
exactly the original input bits in both modes. -/
theorem c6_theorem (bs : List ℕ) :
    pack8 bs = bs.flatMap (fun c => (List.range 8).map (fun k => sym8 c (7 - k))) ∧
    (∀ c k : ℕ, sym8 c k = if (c >>> k) &&& 1 = 1 then 0xF8 else 0x80) ∧
    (pack8 bs).length = 8 * bs.length ∧
    (pack4 bs).length = 4 * bs.length ∧
    2 * (pack4 bs).length = (pack8 bs).length ∧
    (∀ c k : ℕ, unsym8 (sym8 c k) = some ((c >>> k) &&& 1)) ∧
    (∀ c j : ℕ, unsym4 (sym4 c j) =
      some [(c >>> (2 * j + 1)) &&& 1, (c >>> (2 * j)) &&& 1]) ∧
    decode8 (pack8 bs) = some (bitsOf bs) ∧
    decode4 (pack4 bs) = some (bitsOf bs) := by
  refine ⟨pack8_eq_flatMap bs, sym8_eq_ite, ?_, ?_, ?_, unsym8_sym8, unsym4_sym4,
    decode8_pack8 bs, decode4_pack4 bs⟩
  · simp [pack8, Nat.mul_comm]
  · simp [pack4, Nat.mul_comm]
  · simp [pack8, pack4]
    ring

/-! ## Claim C4 -/

/-- C4, counterexample.  The claim says that after `resume()` the wheel
`frame_offset` continues from its pre-pause value.  Take the one-pixel
GRB strip `c4s0`, run the first six frames of a rainbow cycle (offsets
0..5; the last transmitted frame is the offset-5 frame `[15, 240, 0]`),
then `pause()` (which transmits the all-black frame) and `resume()`.
The next `run` iteration restarts `_rainbow_cycle` at `start = 0`: the
first post-resume frame (transcript index 7) is the offset-0 frame
`[0, 255, 0]`, not the continuation offset-6 frame `[18, 237, 0]` that
`cycleStep` at offset 6 would transmit. -/
theorem c4_counterexample :
    c4pre.sent[5]? = some [15, 240, 0] ∧
    (pause c4pre).sent[6]? = some [0, 0, 0] ∧
    c4res.flag = true ∧
    (run 1 c4res).sent[7]? = some [0, 255, 0] ∧
    (cycleStep c4res 6).sent[7]? = some [18, 237, 0] ∧
    ([0, 255, 0] : List ℤ) ≠ [18, 237, 0] := by
  refine ⟨by with_unfolding_all rfl, by with_unfolding_all rfl, rfl, ?_,
    by with_unfolding_all rfl, by decide⟩
  have hrun : run 1 c4res = rainbowCycle c4res := rfl
  have hinit : c4res.ledInit = true := by with_unfolding_all rfl
  have h1 := rainbowCycle_first_frame c4res hinit
  have hlen : c4res.sent.length + 1 = 8 := by with_unfolding_all rfl
  have h2 : (cycleStep c4res 0).sent[7]? = some [0, 255, 0] := by
    with_unfolding_all rfl
  rw [hlen] at h1
  rw [hrun, ← List.getElem?_take_of_lt (show (7 : ℕ) < 8 by omega), h1, h2]

/-- C4, amended.  `pause()` sets `light_mode` to none, clears the
running flag, and — when the SPI device is initialised and the buffer
well-formed — immediately transmits an all-black frame, so the last
transmitted frame is all-zero pixels; a second `pause()` changes nothing
except retransmitting the same black frame (idempotent on the pixel and
control state); `resume()` re-enters Running by setting the flag and
changing nothing else.  However, the wheel offset does not continue from
the pre-pause value: the run loop re-invokes `_rainbow_cycle`, whose
`for start in range(256)` always restarts at offset 0, so the first
frame transmitted after `resume()` is the offset-0 frame. -/
theorem c4_amended (s : LedState) (hwf : WF s) (hinit : s.ledInit = true) :
    (pause s).flag = false ∧
    (pause s).lightMode = "none" ∧
    (pause s).sent = s.sent ++ [List.replicate (3 * s.count) (0 : ℤ)] ∧
    pause (pause s) =
      { pause s with
          sent := (pause s).sent ++ [List.replicate (3 * s.count) (0 : ℤ)] } ∧
    resume (pause s) = { pause s with flag := true } ∧
    (∀ (t : LedState) (n : ℕ), t.flag = true →
      run (n + 1) t = run n (rainbowCycle t)) ∧
    (rainbowCycle (resume (pause s))).sent.take
        ((resume (pause s)).sent.length + 1) =
      (cycleStep (resume (pause s)) 0).sent := by
  have hp := pause_eq s hwf hinit
  refine ⟨by rw [hp], by rw [hp], by rw [hp], ?_, rfl, ?_, ?_⟩
  · have hwf2 : WF (pause s) := WF_pause s hwf hinit
    have hinit2 : (pause s).ledInit = true := by rw [hp]; exact hinit
    have hp2 := pause_eq (pause s) hwf2 hinit2
    rw [hp2, hp]
  · intro t n ht
    show (if t.flag then run n (rainbowCycle t) else t) = _
    rw [ht]
    simp
  · apply rainbowCycle_first_frame
    show (pause s).ledInit = true
    rw [hp]
    exact hinit

/-- C4, witness: the amended theorem applied to the concrete one-pixel
strip `c4s0`. -/
theorem c4_witness :
    (WF c4s0 ∧ c4s0.ledInit = true) ∧
    ((pause c4s0).flag = false ∧
      (pause c4s0).sent = c4s0.sent ++ [List.replicate (3 * c4s0.count) (0 : ℤ)] ∧
      resume (pause c4s0) = { pause c4s0 with flag := true }) := by
  have h := c4_amended c4s0 (by decide) rfl
  exact ⟨⟨by decide, rfl⟩, h.1, h.2.2.1, h.2.2.2.2.1⟩

/-! ## Claim C7 -/

/-- Auxiliary for C7: the stored pixel differs from raw red whenever the
brightness is below 255 or the channel order does not keep red first. -/
theorem permTriple_red_ne (o : ChannelOrder) (br : ℤ)
    (h : br < 255 ∨ red_offset o ≠ 0) : permTriple o br 0 0 ≠ [255, 0, 0] := by
  rcases h with hbr | hro
  · cases o <;> (intro he; simp [permTriple] at he) <;> omega
  · cases o
    case RGB => exact absurd rfl hro
    case RBG => exact absurd rfl hro
    all_goals (intro he; simp [permTriple] at he)

/-- C7, counterexample.  The claim says `fill(255, 0, 0)` followed by
reading back pixel 0 returns something different from raw `(255, 0, 0)`
whenever brightness < 255 *or* the channel order is not RGB.  For the
RBG strip `c7sRBG` at full brightness the order is not RGB, yet the
stored triple is exactly `[255, 0, 0]`: the R↔ nothing, B↔G swap fixes
pure red, so the readback *is* raw red. -/
theorem c7_counterexample :
    (setAllRgb c7sRBG 255 0 0).ledColor[0]? = some [255, 0, 0] ∧
    ChannelOrder.RBG ≠ ChannelOrder.RGB ∧
    c7sRBG.order = ChannelOrder.RBG ∧ c7sRBG.brightness = 255 := by
  exact ⟨by with_unfolding_all rfl, by decide, rfl, rfl⟩

/-- C7, amended.  For every valid pixel index and colour, `_set_pixel`
stores the brightness-scaled triple
`effective = int(channel * brightness / 255)` permuted by the configured
channel order; `fill(255, 0, 0)` followed by reading back pixel 0
returns the scaled, reordered red `permTriple order brightness 0 0`,
which differs from raw `(255, 0, 0)` whenever brightness < 255 or the
channel order places red away from the first byte (GRB, GBR, BRG, BGR) —
but for RBG at full brightness it coincides with raw red. -/
theorem c7_amended (s : LedState) (idx : ℕ) (r g b : ℤ)
    (hwf : WF s) (hinit : s.ledInit = true) (hidx : idx < s.count)
    (hpos : 0 < s.count) :
    (setPixel s idx r g b).ledColor[idx]? =
      some (permTriple s.order (scale s.brightness r) (scale s.brightness g)
        (scale s.brightness b)) ∧
    (setAllRgb s 255 0 0).ledColor[0]? =
      some (permTriple s.order s.brightness 0 0) ∧
    ((s.brightness < 255 ∨ red_offset s.order ≠ 0) →
      (setAllRgb s 255 0 0).ledColor[0]? ≠ some [255, 0, 0]) := by
  obtain ⟨hc, h3, ho⟩ := hwf
  have hidx' : idx < s.ledColor.length := by rw [hc]; exact hidx
  have hfill : (setAllRgb s 255 0 0).ledColor[0]? =
      some (permTriple s.order s.brightness 0 0) := by
    rw [setAllRgb_eq s 255 0 0 ⟨hc, h3, ho⟩ hinit]
    show (List.replicate s.count (permTriple s.order (scale s.brightness 255)
      (scale s.brightness 0) (scale s.brightness 0)))[0]? = _
    rw [scale_255, scale_zero, List.getElem?_replicate_of_lt hpos]
  refine ⟨?_, hfill, ?_⟩
  · rw [setPixel_eq s idx r g b h3 hidx']
    show (s.ledColor.set idx _)[idx]? = _
    rw [List.getElem?_set_self hidx']
  · intro hcond
    rw [hfill]
    simp only [ne_eq, Option.some.injEq]
    exact permTriple_red_ne s.order s.brightness hcond

/-- C7, witness: the amended theorem applied to the two-pixel GRB strip
at brightness 128, plus the evaluated readback `[0, 128, 0]`. -/
theorem c7_witness :
    (WF c7sGRB ∧ c7sGRB.ledInit = true ∧ 1 < c7sGRB.count ∧ 0 < c7sGRB.count) ∧
    ((setPixel c7sGRB 1 10 20 30).ledColor[1]? =
      some (permTriple c7sGRB.order (scale c7sGRB.brightness 10)
        (scale c7sGRB.brightness 20) (scale c7sGRB.brightness 30)) ∧
    (setAllRgb c7sGRB 255 0 0).ledColor[0]? =
      some (permTriple c7sGRB.order c7sGRB.brightness 0 0) ∧
    (setAllRgb c7sGRB 255 0 0).ledColor[0]? ≠ some [255, 0, 0] ∧
    (setAllRgb c7sGRB 255 0 0).ledColor[0]? = some [0, 128, 0]) := by
  have h := c7_amended c7sGRB 1 10 20 30 (by decide) rfl (by decide) (by decide)
  exact ⟨⟨by decide, rfl, by decide, by decide⟩, h.1, h.2.1,
    h.2.2 (Or.inr (by decide)), by with_unfolding_all rfl⟩

end RobotFrank
